import Mathlib

/-
  Verification development for the tala_base workflow engine.

  The Go source is shallowly embedded:
  * the data types of types/executor.go become Lean structures;
  * Go maps (map[string]X) become association lists with replace-on-insert
    semantics and zero-value defaults on missing keys, matching Go map reads;
  * the two ExecuteStep implementations (orchestrator/executor.go and the
    second orchestrator file shipped as unnamed/part_002) become stepOutcomeO
    and stepOutcomeU, with the template engine, the JSON decoder and the HTTP
    transport supplied as oracle functions;
  * ExecuteChain (textually identical in both files) becomes executeChain,
    built on chainLoop; a Go runtime panic (index out of range) is a
    distinguished result constructor; the list of dispatched steps is
    returned alongside the result so dispatch-counting properties can be
    stated.
-/

section AssocMap

/-- Lookup in an association list, the model of a read from a Go map
(returning the first binding for the key). -/
def lookupA {α : Type} : List (String × α) → String → Option α
  | [], _ => none
  | (k1, v1) :: rest, k => if k1 = k then some v1 else lookupA rest k

/-- Insert-or-replace in an association list, the model of a Go map write. -/
def setA {α : Type} : List (String × α) → String → α → List (String × α)
  | [], k, v => [(k, v)]
  | (k1, v1) :: rest, k, v =>
      if k1 = k then (k, v) :: rest else (k1, v1) :: setA rest k v

end AssocMap

section DataModel

/-- types.Step (types/executor.go). -/
structure Step where
  name : String
  lambda : String
  inputTemplate : String
  passOutputAs : String
  errorHandler : String
deriving DecidableEq, Repr

/-- types.Workflow (types/executor.go). -/
structure Workflow where
  name : String
  description : String
  steps : List Step
deriving DecidableEq, Repr

/-- types.WorkflowError (types/executor.go). -/
structure WorkflowError where
  step : String
  message : String
  code : String
deriving DecidableEq, Repr

variable (V : Type)

/-- types.WorkflowInput: data and context are maps from string keys to
arbitrary JSON-compatible values; the value type is the parameter V. -/
structure WorkflowInput where
  data : List (String × V)
  context : List (String × V)
deriving DecidableEq

/-- types.WorkflowOutput. -/
structure WorkflowOutput where
  data : List (String × V)
  context : List (String × V)
  error : Option WorkflowError
deriving DecidableEq

/-- types.StepResult: the decoded wire-level response of one handler call. -/
structure StepResult where
  data : List (String × V)
  error : Option WorkflowError
deriving DecidableEq

/-- types.StepState. -/
structure StepState where
  input : WorkflowInput V
  output : WorkflowOutput V
deriving DecidableEq

/-- types.WorkflowState: the per-invocation ExecutionState.  The steps map
is an association list keyed by step name. -/
structure WorkflowState where
  steps : List (String × StepState V)
  currentStep : String
  completed : Bool
deriving DecidableEq

end DataModel

section StateOps

variable {V : Type}

/-- Go zero value of types.WorkflowOutput (nil maps, nil error pointer). -/
def zeroOutput : WorkflowOutput V := ⟨[], [], none⟩

/-- Go zero value of types.StepState, produced by reading a missing key of
the state.Steps map. -/
def zeroStepState : StepState V := ⟨⟨[], []⟩, zeroOutput⟩

/-- Read state.Steps[k]: Go map read with zero value on a missing key. -/
def WorkflowState.get (st : WorkflowState V) (k : String) : StepState V :=
  (lookupA st.steps k).getD zeroStepState

/-- Write state.Steps[k] = v. -/
def WorkflowState.set (st : WorkflowState V) (k : String) (v : StepState V) :
    WorkflowState V :=
  { st with steps := setA st.steps k v }

end StateOps

section StepDispatch

variable {V : Type}

/-- Outcome of one ExecuteStep call: either a fatal Go error (the
(nil, err) return) or a decoded StepResult (the (result, nil) return). -/
inductive StepOutcome (V : Type) where
  | fatal : String → StepOutcome V
  | result : StepResult V → StepOutcome V
deriving DecidableEq

/-- Outcome of rendering a step's input template: template.Parse failure,
tmpl.Execute failure, or the rendered payload bytes. -/
inductive RenderResult where
  | parseError : String → RenderResult
  | execError : String → RenderResult
  | rendered : String → RenderResult
deriving DecidableEq

/-- An HTTP response as ExecuteStep observes it: status code, the
Content-Type header value, and the fully read body. -/
structure HttpResponse where
  statusCode : Nat
  contentType : String
  body : String
deriving DecidableEq

/-- Outcome of http.Post: a transport error or a response. -/
inductive HttpResult where
  | transportError : String → HttpResult
  | response : HttpResponse → HttpResult
deriving DecidableEq

/-- Response classification of ExecuteStep in unnamed/part_002
(the portion after the POST returns): Content-Type validation, then
status check, then JSON decoding; every branch is a recoverable
StepResult, never a fatal error. -/
def classifyResponseU (decode : String → Except String (StepResult V))
    (step : Step) (resp : HttpResponse) : StepOutcome V :=
  if resp.contentType ≠ "application/json" then
    .result ⟨[], some ⟨step.name,
      "lambda returned unexpected Content-Type: " ++ resp.contentType ++
        ", body: " ++ resp.body,
      "INVALID_RESPONSE_TYPE"⟩⟩
  else if resp.statusCode ≠ 200 then
    .result ⟨[], some ⟨step.name, "lambda returned error: " ++ resp.body,
      "LAMBDA_ERROR"⟩⟩
  else
    match decode resp.body with
    | .error e =>
        .result ⟨[], some ⟨step.name,
          "failed to parse lambda response as JSON: " ++ resp.body ++
            ", error: " ++ e,
          "INVALID_JSON"⟩⟩
    | .ok result => .result result

/-- Response classification of ExecuteStep in orchestrator/executor.go:
no Content-Type validation, and a body that fails to decode is a fatal
Go error rather than a recoverable result. -/
def classifyResponseO (decode : String → Except String (StepResult V))
    (step : Step) (resp : HttpResponse) : StepOutcome V :=
  if resp.statusCode ≠ 200 then
    .result ⟨[], some ⟨step.name, "lambda returned error: " ++ resp.body,
      "LAMBDA_ERROR"⟩⟩
  else
    match decode resp.body with
    | .error e => .fatal ("failed to parse lambda response: " ++ e)
    | .ok result => .result result

/-- ChainExecutor.ExecuteStep of unnamed/part_002 as a function of the
template engine (render), the JSON decoder (decode), the transport (http)
and the lambda port map (ports): render the input template against the
state, look the lambda's port up, POST the payload to
http://localhost:PORT, then classify the response. -/
def stepOutcomeU (render : String → WorkflowState V → RenderResult)
    (decode : String → Except String (StepResult V))
    (http : String → String → HttpResult)
    (ports : List (String × Nat))
    (step : Step) (state : WorkflowState V) : StepOutcome V :=
  match render step.inputTemplate state with
  | .parseError e => .fatal ("failed to parse input template: " ++ e)
  | .execError e => .fatal ("failed to execute template: " ++ e)
  | .rendered payload =>
    match lookupA ports step.lambda with
    | none => .fatal ("no port mapping found for lambda " ++ step.lambda)
    | some port =>
      match http ("http://localhost:" ++ toString port) payload with
      | .transportError m => .fatal ("failed to call lambda: " ++ m)
      | .response resp => classifyResponseU decode step resp

/-- ChainExecutor.ExecuteStep of orchestrator/executor.go: no port map,
the URL is http://LAMBDA:8080, and no Content-Type validation. -/
def stepOutcomeO (render : String → WorkflowState V → RenderResult)
    (decode : String → Except String (StepResult V))
    (http : String → String → HttpResult)
    (step : Step) (state : WorkflowState V) : StepOutcome V :=
  match render step.inputTemplate state with
  | .parseError e => .fatal ("failed to parse input template: " ++ e)
  | .execError e => .fatal ("failed to execute template: " ++ e)
  | .rendered payload =>
    match http ("http://" ++ step.lambda ++ ":8080") payload with
    | .transportError m => .fatal ("failed to call lambda: " ++ m)
    | .response resp => classifyResponseO decode step resp

/-- ExecuteStep of unnamed/part_002 with the state threaded explicitly:
the Go function receives the state by pointer and never writes through it,
so the returned state is the argument unchanged. -/
def ExecuteStepU (render : String → WorkflowState V → RenderResult)
    (decode : String → Except String (StepResult V))
    (http : String → String → HttpResult)
    (ports : List (String × Nat))
    (step : Step) (state : WorkflowState V) :
    StepOutcome V × WorkflowState V :=
  (stepOutcomeU render decode http ports step state, state)

/-- ExecuteStep of orchestrator/executor.go with the state threaded
explicitly; it likewise never writes to the state. -/
def ExecuteStepO (render : String → WorkflowState V → RenderResult)
    (decode : String → Except String (StepResult V))
    (http : String → String → HttpResult)
    (step : Step) (state : WorkflowState V) :
    StepOutcome V × WorkflowState V :=
  (stepOutcomeO render decode http step state, state)

end StepDispatch

section ChainExecution

variable {V : Type}

/-- Result of the per-step loop of ExecuteChain.  panicked models a Go
runtime panic (index out of range on workflow.Steps); fatalErr models the
(nil, err) return; earlyOut is the in-loop return after a step reported an
error; finished means the loop ran off the end of the step list. -/
inductive LoopResult (V : Type) where
  | panicked : LoopResult V
  | fatalErr : String → LoopResult V
  | earlyOut : WorkflowOutput V → WorkflowState V → LoopResult V
  | finished : WorkflowState V → LoopResult V
deriving DecidableEq

/-- Result of ExecuteChain: a Go panic, the (nil, err) return, or the
(output, nil) return. -/
inductive ChainResult (V : Type) where
  | panicked : ChainResult V
  | fatalErr : String → ChainResult V
  | output : WorkflowOutput V → ChainResult V
deriving DecidableEq

/-- Record a step's decoded result into the state:
stepState := state.Steps[step.Name]; stepState.Output = WorkflowOutput
with the result's data and error (context left at its zero value);
state.Steps[step.Name] = stepState. -/
def recordOutput (state : WorkflowState V) (step : Step) (r : StepResult V) :
    WorkflowState V :=
  state.set step.name ⟨(state.get step.name).input, ⟨r.data, [], r.error⟩⟩

/-- Record the error-handler step's result: its entry reuses the failing
step's input and carries the handler result's data and error. -/
def recordHandler (state : WorkflowState V) (step : Step) (r : StepResult V)
    (handlerStep : Step) (hr : StepResult V) : WorkflowState V :=
  (recordOutput state step r).set handlerStep.name
    ⟨(state.get step.name).input, ⟨hr.data, [], hr.error⟩⟩

/-- Seed the next step after a successful one: its input carries the
result's data and the finished step's recorded input context, and
state.CurrentStep advances to the next step's name. -/
def seedNext (state : WorkflowState V) (step : Step) (r : StepResult V)
    (nextStep : Step) : WorkflowState V :=
  { (recordOutput state step r).set nextStep.name
      ⟨⟨r.data, (state.get step.name).input.context⟩, zeroOutput⟩ with
    currentStep := nextStep.name }

/-- The for-loop of ChainExecutor.ExecuteChain (identical in
orchestrator/executor.go and unnamed/part_002), with the per-step
dispatch abstracted as exec.  The second component of the result is the
list of dispatched steps, in dispatch order.  The un-guarded
workflow.Steps[i+1] access of the error-handler branch becomes panicked
when the failing step is the last one. -/
def chainLoop (exec : Step → WorkflowState V → StepOutcome V) :
    List Step → WorkflowState V → LoopResult V × List Step
  | [], state => (.finished state, [])
  | step :: rest, state =>
    match exec step state with
    | .fatal msg =>
        (.fatalErr ("step " ++ step.name ++ " failed: " ++ msg), [step])
    | .result result =>
      match result.error with
      | some _ =>
        if step.errorHandler ≠ "" then
          match rest with
          | [] => (.panicked, [step])
          | errorStep :: _ =>
            match exec errorStep (recordOutput state step result) with
            | .fatal msg =>
                (.fatalErr ("error handler " ++ errorStep.name ++
                  " failed: " ++ msg), [step, errorStep])
            | .result errorResult =>
                (.earlyOut ⟨[], [], result.error⟩
                  (recordHandler state step result errorStep errorResult),
                 [step, errorStep])
        else
          (.earlyOut ⟨[], [], result.error⟩ (recordOutput state step result),
           [step])
      | none =>
        match rest with
        | [] => (.finished (recordOutput state step result), [step])
        | nextStep :: _ =>
          ((chainLoop exec rest (seedNext state step result nextStep)).1,
           step :: (chainLoop exec rest (seedNext state step result nextStep)).2)

/-- The zero Step, used only as the default of lastD. -/
def defaultStep : Step := ⟨"", "", "", "", ""⟩

/-- Last element of a step list with a default, the model of the
workflow.Steps[len(workflow.Steps)-1] access. -/
def lastD : List Step → Step → Step
  | [], d => d
  | s :: rest, _ => lastD rest s

/-- The seeded ExecutionState of ExecuteChain: the first step's entry
holds the caller's input, and CurrentStep is the first step's name. -/
def initialState (step0 : Step) (input : WorkflowInput V) : WorkflowState V :=
  { steps := setA [] step0.name ⟨input, zeroOutput⟩
    currentStep := step0.name
    completed := false }

/-- ChainExecutor.ExecuteChain (identical in orchestrator/executor.go and
unnamed/part_002): registry lookup, state seeding (which evaluates
workflow.Steps[0] and panics on an empty step list), the per-step loop,
and on completion the final WorkflowOutput built from the last step's
recorded output data and recorded input context. -/
def executeChain (exec : Step → WorkflowState V → StepOutcome V)
    (workflows : List (String × Workflow)) (name : String)
    (input : WorkflowInput V) : ChainResult V × List Step :=
  match lookupA workflows name with
  | none => (.fatalErr ("workflow " ++ name ++ " not found"), [])
  | some workflow =>
    match workflow.steps with
    | [] => (.panicked, [])
    | step0 :: rest =>
      match chainLoop exec (step0 :: rest) (initialState step0 input) with
      | (.panicked, tr) => (.panicked, tr)
      | (.fatalErr m, tr) => (.fatalErr m, tr)
      | (.earlyOut out _, tr) => (.output out, tr)
      | (.finished fs, tr) =>
          (.output
            ⟨(({ fs with completed := true }).get
                (lastD (step0 :: rest) defaultStep).name).output.data,
             (({ fs with completed := true }).get
                (lastD (step0 :: rest) defaultStep).name).input.context,
             none⟩,
           tr)

/-- The chain executor of unnamed/part_002 dispatches steps through its
own ExecuteStep. -/
def execU (render : String → WorkflowState V → RenderResult)
    (decode : String → Except String (StepResult V))
    (http : String → String → HttpResult)
    (ports : List (String × Nat)) :
    Step → WorkflowState V → StepOutcome V :=
  fun step state => (ExecuteStepU render decode http ports step state).1

end ChainExecution

section JsonCheck

/-- The opening-brace character, written by code point. -/
def braceL : Char := Char.ofNat 123

/-- The closing-brace character, written by code point. -/
def braceR : Char := Char.ofNat 125

/-- JSON whitespace. -/
def isWsChar (c : Char) : Bool :=
  c = ' ' || c = '\t' || c = '\n' || c = '\r'

/-- Drop leading JSON whitespace. -/
def skipWs : List Char → List Char
  | [] => []
  | c :: cs => if isWsChar c then skipWs cs else c :: cs

/-- Consume the remainder of a JSON string literal (the opening quote
already consumed), honouring backslash escapes; yields the rest of the
input past the closing quote. -/
def jsonStringRest : List Char → Option (List Char)
  | [] => none
  | c :: cs =>
    if c = '"' then some cs
    else if c = '\\' then
      match cs with
      | [] => none
      | _ :: cs2 => jsonStringRest cs2
    else jsonStringRest cs

/-- ASCII digit test. -/
def isDigitChar (c : Char) : Bool := '0' ≤ c && c ≤ '9'

/-- Consume a maximal digit run; yields the count and the rest. -/
def takeDigits : List Char → Nat × List Char
  | [] => (0, [])
  | c :: cs =>
    if isDigitChar c then
      ((takeDigits cs).1 + 1, (takeDigits cs).2)
    else (0, c :: cs)

/-- Consume a JSON number (integer part, optional fraction, optional
exponent); yields the rest of the input or none. -/
def jsonNumber (cs : List Char) : Option (List Char) :=
  let cs1 := match cs with
    | c :: t => if c = '-' then t else c :: t
    | [] => []
  match takeDigits cs1 with
  | (0, _) => none
  | (_ + 1, r1) =>
    let r2 : Option (List Char) := match r1 with
      | c :: t =>
        if c = '.' then
          match takeDigits t with
          | (0, _) => none
          | (_ + 1, r) => some r
        else some (c :: t)
      | [] => some []
    match r2 with
    | none => none
    | some r3 =>
      match r3 with
      | c :: t =>
        if c = 'e' || c = 'E' then
          let t2 := match t with
            | c2 :: t3 => if c2 = '+' || c2 = '-' then t3 else c2 :: t3
            | [] => []
          match takeDigits t2 with
          | (0, _) => none
          | (_ + 1, r) => some r
        else some (c :: t)
      | [] => some []

mutual

/-- Consume one JSON value; the fuel bounds nesting depth. -/
def jsonValue : Nat → List Char → Option (List Char)
  | 0, _ => none
  | fuel + 1, cs =>
    match skipWs cs with
    | [] => none
    | c :: t =>
      if c = braceL then jsonMembers fuel t
      else if c = '[' then jsonElems fuel t
      else if c = '"' then jsonStringRest t
      else if c = 't' then
        match t with
        | 'r' :: 'u' :: 'e' :: r => some r
        | _ => none
      else if c = 'f' then
        match t with
        | 'a' :: 'l' :: 's' :: 'e' :: r => some r
        | _ => none
      else if c = 'n' then
        match t with
        | 'u' :: 'l' :: 'l' :: r => some r
        | _ => none
      else jsonNumber (c :: t)

/-- Consume the members of a JSON object (the opening brace already
consumed), up to and including the closing brace. -/
def jsonMembers : Nat → List Char → Option (List Char)
  | 0, _ => none
  | fuel + 1, cs =>
    match skipWs cs with
    | [] => none
    | c :: t =>
      if c = braceR then some t
      else if c = '"' then
        match jsonStringRest t with
        | none => none
        | some r1 =>
          match skipWs r1 with
          | ':' :: r2 =>
            match jsonValue fuel r2 with
            | none => none
            | some r3 =>
              match skipWs r3 with
              | ',' :: r4 => jsonMembers fuel r4
              | c2 :: r4 => if c2 = braceR then some r4 else none
              | [] => none
          | _ => none
      else none

/-- Consume the elements of a JSON array (the opening bracket already
consumed), up to and including the closing bracket. -/
def jsonElems : Nat → List Char → Option (List Char)
  | 0, _ => none
  | fuel + 1, cs =>
    match skipWs cs with
    | [] => none
    | c :: t =>
      if c = ']' then some t
      else
        match jsonValue fuel (c :: t) with
        | none => none
        | some r1 =>
          match skipWs r1 with
          | ',' :: r2 => jsonElems fuel r2
          | c2 :: r2 => if c2 = ']' then some r2 else none
          | [] => none

end

/-- Whether a string parses as a single well-formed JSON object
(surrounding whitespace allowed, nothing trailing). -/
def isJsonObjectString (s : String) : Bool :=
  match skipWs s.toList with
  | c :: t =>
    if c = braceL then
      match jsonMembers (s.length + 1) t with
      | some r => (skipWs r).isEmpty
      | none => false
    else false
  | [] => false

end JsonCheck

section AuxDefs

variable {V : Type}

/-- Modelled from the spec: the Template Renderer of section 4.3 applied to
a template that contains no references renders its literal text verbatim
(the engine substitutes nothing, so the output bytes are the template
bytes).  The engine itself (Go text/template) is not part of this
repository; this models its action-free fragment. -/
def renderLiteral : String → WorkflowState V → RenderResult :=
  fun t _ => .rendered t

/-- The machine-readable error code carried by a step outcome's result,
when there is one. -/
def errCode (r : StepResult V) : Option String :=
  r.error.map fun e => e.code

/-- Whether two ExecuteStep outcomes agree as classifications: both fatal
Go errors, or both decoded StepResults carrying the same error code. -/
def sameClassification : StepOutcome V → StepOutcome V → Bool
  | .fatal _, .fatal _ => true
  | .result r1, .result r2 => errCode r1 == errCode r2
  | _, _ => false

end AuxDefs

section Scenarios

/-- An empty execution state used by concrete instances. -/
def cState : WorkflowState Nat := ⟨[], "", false⟩

/-- A concrete workflow input. -/
def cInput : WorkflowInput Nat := ⟨[("d", 0)], [("c", 7)]⟩

/-- A plain step with no error handler. -/
def cStepA : Step := ⟨"a", "user_create", "ta", "oa", ""⟩

/-- A second plain step. -/
def cStepB : Step := ⟨"b", "user_read", "tb", "ob", ""⟩

/-- A step named f that declares error handler h. -/
def cStepFail : Step := ⟨"f", "user_create", "tf", "of", "h"⟩

/-- A step named f with no error handler. -/
def cStepFailNoH : Step := ⟨"f", "user_create", "tf", "of", ""⟩

/-- A step whose input template is the action-free text hello. -/
def cStepHello : Step := ⟨"a", "user_create", "hello", "oa", ""⟩

/-- A concrete domain-level workflow error. -/
def cErr : WorkflowError := ⟨"f", "boom", "LAMBDA_ERROR"⟩

/-- A successful decoded step result. -/
def cResOk : StepResult Nat := ⟨[("k", 1)], none⟩

/-- A decoded step result carrying cErr. -/
def cResErr : StepResult Nat := ⟨[], some cErr⟩

/-- The recovery step's decoded result. -/
def cResRec : StepResult Nat := ⟨[("r", 2)], none⟩

/-- A dispatcher on which every step succeeds with cResOk. -/
def cExecOk : Step → WorkflowState Nat → StepOutcome Nat :=
  fun _ _ => .result cResOk

/-- A dispatcher on which the step named f fails with cErr and every
other step succeeds with cResRec. -/
def cExecByName : Step → WorkflowState Nat → StepOutcome Nat :=
  fun s _ => if s.name = "f" then .result cResErr else .result cResRec

/-- One-step workflow of cStepA. -/
def cWfA : Workflow := ⟨"w", "", [cStepA]⟩

/-- Registry holding cWfA under w. -/
def cRegA : List (String × Workflow) := [("w", cWfA)]

/-- Workflow whose first step fails and declares a handler; cStepB is the
next positional step. -/
def cWfFail2 : Workflow := ⟨"w", "", [cStepFail, cStepB]⟩

/-- Registry holding cWfFail2 under w. -/
def cRegFail2 : List (String × Workflow) := [("w", cWfFail2)]

/-- Workflow whose first step fails with no handler, with a declared
second step. -/
def cWfFailNoH : Workflow := ⟨"w", "", [cStepFailNoH, cStepB]⟩

/-- Registry holding cWfFailNoH under w. -/
def cRegFailNoH : List (String × Workflow) := [("w", cWfFailNoH)]

/-- Workflow with an empty parsed step list. -/
def cWfEmpty : Workflow := ⟨"w", "", []⟩

/-- Registry holding cWfEmpty under w. -/
def cRegEmpty : List (String × Workflow) := [("w", cWfEmpty)]

/-- Workflow whose single (hence last) step fails and declares a handler. -/
def cWfLastFail : Workflow := ⟨"w", "", [cStepFail]⟩

/-- Registry holding cWfLastFail under w. -/
def cRegLastFail : List (String × Workflow) := [("w", cWfLastFail)]

/-- A renderer producing the fixed payload p for every template. -/
def cRender : String → WorkflowState Nat → RenderResult :=
  fun _ _ => .rendered "p"

/-- The port map of unnamed/part_002 restricted to the two lambdas the
scenarios use. -/
def cPorts : List (String × Nat) := [("user_create", 8080), ("user_read", 8081)]

/-- A transport on which every POST fails. -/
def cHttpDown : String → String → HttpResult :=
  fun _ _ => .transportError "refused"

/-- A decoder accepting every body as cResOk. -/
def cDecodeOk : String → Except String (StepResult Nat) :=
  fun _ => .ok cResOk

/-- A decoder rejecting every body. -/
def cDecodeErr : String → Except String (StepResult Nat) :=
  fun _ => .error "bad"

/-- A 200 response with a non-JSON content type. -/
def cRespText : HttpResponse := ⟨200, "text/plain", "zz"⟩

/-- A 200 response with the JSON content type. -/
def cRespJson200 : HttpResponse := ⟨200, "application/json", "zz"⟩

/-- A 500 response with the JSON content type. -/
def cRespJson500 : HttpResponse := ⟨500, "application/json", "err"⟩

/-- A transport answering every POST with cRespText. -/
def cHttpText : String → String → HttpResult :=
  fun _ _ => .response cRespText

/-- A transport answering every POST with cRespJson200. -/
def cHttpJson200 : String → String → HttpResult :=
  fun _ _ => .response cRespJson200

/-- A transport answering every POST with cRespJson500. -/
def cHttpJson500 : String → String → HttpResult :=
  fun _ _ => .response cRespJson500

end Scenarios

section MapLemmas

variable {V : Type}

theorem lookupA_setA_self {α : Type} (m : List (String × α)) (k : String) (v : α) :
    lookupA (setA m k v) k = some v := by
  induction m with
  | nil => simp [setA, lookupA]
  | cons kv rest ih =>
    obtain ⟨k1, v1⟩ := kv
    by_cases h : k1 = k
    · simp [setA, lookupA, h]
    · simp [setA, lookupA, h, ih]

theorem get_set_self (st : WorkflowState V) (k : String) (v : StepState V) :
    (st.set k v).get k = v := by
  simp [WorkflowState.get, WorkflowState.set, lookupA_setA_self]

theorem get_currentStep (st : WorkflowState V) (n : String) (k : String) :
    ({ st with currentStep := n }).get k = st.get k := rfl

theorem get_seedNext_self (state : WorkflowState V) (step : Step)
    (r : StepResult V) (nextStep : Step) :
    (seedNext state step r nextStep).get nextStep.name =
      ⟨⟨r.data, (state.get step.name).input.context⟩, zeroOutput⟩ := by
  unfold seedNext
  rw [get_currentStep, get_set_self]

theorem lastD_irrel (l : List Step) (h : l ≠ []) (d1 d2 : Step) :
    lastD l d1 = lastD l d2 := by
  cases l with
  | nil => exact absurd rfl h
  | cons s rest => rfl

end MapLemmas

section LoopLemmas

variable {V : Type}

theorem chainLoop_cons_fatal (exec : Step → WorkflowState V → StepOutcome V)
    (s : Step) (rest : List Step) (state : WorkflowState V) (m : String)
    (hr : exec s state = .fatal m) :
    chainLoop exec (s :: rest) state =
      (.fatalErr ("step " ++ s.name ++ " failed: " ++ m), [s]) := by
  simp [chainLoop, hr]

theorem chainLoop_single_ok (exec : Step → WorkflowState V → StepOutcome V)
    (s : Step) (state : WorkflowState V) (r : StepResult V)
    (hr : exec s state = .result r) (he : r.error = none) :
    chainLoop exec [s] state = (.finished (recordOutput state s r), [s]) := by
  simp [chainLoop, hr, he]

theorem chainLoop_cons_ok (exec : Step → WorkflowState V → StepOutcome V)
    (s nextS : Step) (rest2 : List Step) (state : WorkflowState V)
    (r : StepResult V)
    (hr : exec s state = .result r) (he : r.error = none) :
    chainLoop exec (s :: nextS :: rest2) state =
      ((chainLoop exec (nextS :: rest2) (seedNext state s r nextS)).1,
       s :: (chainLoop exec (nextS :: rest2) (seedNext state s r nextS)).2) := by
  simp [chainLoop, hr, he]

theorem chainLoop_cons_err_noh (exec : Step → WorkflowState V → StepOutcome V)
    (s : Step) (rest : List Step) (state : WorkflowState V) (r : StepResult V)
    (e : WorkflowError)
    (hr : exec s state = .result r) (he : r.error = some e)
    (hh : s.errorHandler = "") :
    chainLoop exec (s :: rest) state =
      (.earlyOut ⟨[], [], some e⟩ (recordOutput state s r), [s]) := by
  simp [chainLoop, hr, he, hh]

theorem chainLoop_cons_err_handler_nil
    (exec : Step → WorkflowState V → StepOutcome V)
    (s : Step) (state : WorkflowState V) (r : StepResult V) (e : WorkflowError)
    (hr : exec s state = .result r) (he : r.error = some e)
    (hh : s.errorHandler ≠ "") :
    chainLoop exec [s] state = (.panicked, [s]) := by
  simp [chainLoop, hr, he, hh]

theorem chainLoop_cons_err_handler
    (exec : Step → WorkflowState V → StepOutcome V)
    (s s2 : Step) (rest2 : List Step) (state : WorkflowState V)
    (r rr : StepResult V) (e : WorkflowError)
    (hr : exec s state = .result r) (he : r.error = some e)
    (hh : s.errorHandler ≠ "")
    (hex : exec s2 (recordOutput state s r) = .result rr) :
    chainLoop exec (s :: s2 :: rest2) state =
      (.earlyOut ⟨[], [], some e⟩ (recordHandler state s r s2 rr), [s, s2]) := by
  simp [chainLoop, hr, he, hh, hex]

theorem chainLoop_cons_err_handler_fatal
    (exec : Step → WorkflowState V → StepOutcome V)
    (s s2 : Step) (rest2 : List Step) (state : WorkflowState V)
    (r : StepResult V) (e : WorkflowError) (m : String)
    (hr : exec s state = .result r) (he : r.error = some e)
    (hh : s.errorHandler ≠ "")
    (hex : exec s2 (recordOutput state s r) = .fatal m) :
    chainLoop exec (s :: s2 :: rest2) state =
      (.fatalErr ("error handler " ++ s2.name ++ " failed: " ++ m), [s, s2]) := by
  simp [chainLoop, hr, he, hh, hex]

end LoopLemmas

section MainLemmas

variable {V : Type}

theorem chainLoop_allOk (exec : Step → WorkflowState V → StepOutcome V)
    (hexec : ∀ s st, ∃ r, exec s st = .result r ∧ r.error = none) :
    ∀ (steps : List Step) (state : WorkflowState V), steps ≠ [] →
      ∃ preState r finalState,
        exec (lastD steps defaultStep) preState = .result r ∧
        r.error = none ∧
        chainLoop exec steps state = (.finished finalState, steps) ∧
        finalState.get (lastD steps defaultStep).name =
          ⟨(preState.get (lastD steps defaultStep).name).input,
            ⟨r.data, [], none⟩⟩ ∧
        (preState.get (lastD steps defaultStep).name).input.context =
          (state.get (steps.headD defaultStep).name).input.context := by
  intro steps
  induction steps with
  | nil => intro state h; exact absurd rfl h
  | cons s rest ih =>
    intro state _
    obtain ⟨r0, hr0, he0⟩ := hexec s state
    cases rest with
    | nil =>
      refine ⟨state, r0, recordOutput state s r0, ?_, he0, ?_, ?_, ?_⟩
      · exact hr0
      · exact chainLoop_single_ok exec s state r0 hr0 he0
      · show (recordOutput state s r0).get s.name = _
        rw [recordOutput, get_set_self, he0]
        simp [lastD]
      · rfl
    | cons s2 rest2 =>
      obtain ⟨pre, r, fs, h1, h2, h3, h4, h5⟩ :=
        ih (seedNext state s r0 s2) (by simp)
      have hcast : lastD (s :: s2 :: rest2) defaultStep
          = lastD (s2 :: rest2) defaultStep :=
        lastD_irrel (s2 :: rest2) (by simp) s defaultStep
      refine ⟨pre, r, fs, ?_, h2, ?_, ?_, ?_⟩
      · rw [hcast]; exact h1
      · rw [chainLoop_cons_ok exec s s2 rest2 state r0 hr0 he0, h3]
      · rw [hcast]; exact h4
      · rw [hcast]
        rw [h5]
        show ((seedNext state s r0 s2).get s2.name).input.context = _
        rw [get_seedNext_self]
        rfl

theorem chainLoop_prefix (exec : Step → WorkflowState V → StepOutcome V)
    (tail : List Step) :
    ∀ pre : List Step,
      (∀ s ∈ pre, ∀ st : WorkflowState V,
        ∃ r, exec s st = .result r ∧ r.error = none) →
      ∀ state : WorkflowState V, ∃ state2,
        chainLoop exec (pre ++ tail) state =
          ((chainLoop exec tail state2).1,
           pre ++ (chainLoop exec tail state2).2) := by
  intro pre
  induction pre with
  | nil => intro _ state; exact ⟨state, by simp⟩
  | cons s pre1 ih =>
    intro hpre state
    obtain ⟨r0, hr0, he0⟩ := hpre s (by simp) state
    cases hcat : pre1 ++ tail with
    | nil =>
      obtain ⟨hp1, ht⟩ := List.append_eq_nil.mp hcat
      subst hp1
      subst ht
      refine ⟨recordOutput state s r0, ?_⟩
      have h1 := chainLoop_single_ok exec s state r0 hr0 he0
      simp only [List.append_nil]
      rw [h1]
      simp [chainLoop]
    | cons n nt =>
      obtain ⟨st2, h⟩ :=
        ih (fun x hx st => hpre x (by simp [hx]) st) (seedNext state s r0 n)
      refine ⟨st2, ?_⟩
      have hstep : chainLoop exec ((s :: pre1) ++ tail) state
          = ((chainLoop exec (pre1 ++ tail) (seedNext state s r0 n)).1,
             s :: (chainLoop exec (pre1 ++ tail) (seedNext state s r0 n)).2) := by
        rw [List.cons_append, hcat]
        exact chainLoop_cons_ok exec s n nt state r0 hr0 he0
      rw [hstep, h]
      simp

theorem chainLoop_no_panic (exec : Step → WorkflowState V → StepOutcome V) :
    ∀ (steps : List Step) (state : WorkflowState V),
      ((lastD steps defaultStep).errorHandler = "" ∨
        ∀ st r, exec (lastD steps defaultStep) st = .result r →
          r.error = none) →
      (chainLoop exec steps state).1 ≠ .panicked := by
  intro steps
  induction steps with
  | nil => intro state _; simp [chainLoop]
  | cons s rest ih =>
    intro state hsafe
    cases hr : exec s state with
    | fatal m => simp [chainLoop_cons_fatal exec s rest state m hr]
    | result r =>
      cases he : r.error with
      | none =>
        cases rest with
        | nil => simp [chainLoop_single_ok exec s state r hr he]
        | cons s2 rest2 =>
          have hcast : lastD (s :: s2 :: rest2) defaultStep
              = lastD (s2 :: rest2) defaultStep :=
            lastD_irrel (s2 :: rest2) (by simp) s defaultStep
          rw [hcast] at hsafe
          rw [chainLoop_cons_ok exec s s2 rest2 state r hr he]
          exact ih (seedNext state s r s2) hsafe
      | some e =>
        by_cases hh : s.errorHandler = ""
        · simp [chainLoop_cons_err_noh exec s rest state r e hr he hh]
        · cases rest with
          | nil =>
            exfalso
            cases hsafe with
            | inl h0 => exact hh h0
            | inr h0 =>
              have := h0 state r hr
              rw [he] at this
              exact Option.noConfusion this
          | cons s2 rest2 =>
            cases hex : exec s2 (recordOutput state s r) with
            | fatal m =>
              simp [chainLoop_cons_err_handler_fatal exec s s2 rest2 state
                r e m hr he hh hex]
            | result rr =>
              simp [chainLoop_cons_err_handler exec s s2 rest2 state
                r rr e hr he hh hex]

end MainLemmas

section ClaimTheorems

variable {V : Type}

theorem get_completed (st : WorkflowState V) (b : Bool) (k : String) :
    ({ st with completed := b }).get k = st.get k := rfl

/-- C1: For every loaded workflow with N steps and every input, if no
step's dispatch yields an error result and no fatal error occurs (every
dispatch returns a decoded result with no error), ExecuteChain dispatches
exactly N times in declared step order — the dispatch trace equals the
declared step list — and returns a WorkflowOutput whose data equals the
Nth step's decoded result data and whose context equals the Nth step's
recorded input context (which equals the original input's context). -/
theorem executeChain_all_ok
    (exec : Step → WorkflowState V → StepOutcome V)
    (wfs : List (String × Workflow)) (name : String) (input : WorkflowInput V)
    (wf : Workflow)
    (hwf : lookupA wfs name = some wf)
    (hne : wf.steps ≠ [])
    (hexec : ∀ s st, ∃ r, exec s st = .result r ∧ r.error = none) :
    ∃ preState r finalState,
      exec (lastD wf.steps defaultStep) preState = .result r ∧
      r.error = none ∧
      chainLoop exec wf.steps
          (initialState (wf.steps.headD defaultStep) input)
        = (.finished finalState, wf.steps) ∧
      (finalState.get (lastD wf.steps defaultStep).name).output.data
        = r.data ∧
      (finalState.get (lastD wf.steps defaultStep).name).input.context
        = input.context ∧
      executeChain exec wfs name input =
        (.output ⟨r.data,
          (finalState.get (lastD wf.steps defaultStep).name).input.context,
          none⟩, wf.steps) := by
  obtain ⟨s0, rest, hsteps⟩ : ∃ s0 rest, wf.steps = s0 :: rest := by
    cases h : wf.steps with
    | nil => exact absurd h hne
    | cons a l => exact ⟨a, l, rfl⟩
  obtain ⟨pre, r, fs, h1, h2, h3, h4, h5⟩ :=
    chainLoop_allOk exec hexec wf.steps
      (initialState (wf.steps.headD defaultStep) input) hne
  have hinit : ((initialState (wf.steps.headD defaultStep) input :
      WorkflowState V).get (wf.steps.headD defaultStep).name)
      = ⟨input, zeroOutput⟩ := by
    simp [initialState, WorkflowState.get, setA, lookupA]
  refine ⟨pre, r, fs, h1, h2, h3, ?_, ?_, ?_⟩
  · rw [h4]
  · rw [h4]
    show (pre.get (lastD wf.steps defaultStep).name).input.context = _
    rw [h5, hinit]
  · have hhead : wf.steps.headD defaultStep = s0 := by rw [hsteps]; rfl
    rw [hhead] at h3
    rw [hsteps] at h3
    rw [hsteps] at h4
    show executeChain exec wfs name input = _
    simp only [executeChain, hwf, hsteps]
    rw [h3]
    simp only [get_completed]
    rw [h4]

/-- Witness for executeChain_all_ok: a concrete one-step workflow on an
always-succeeding dispatcher. -/
theorem executeChain_all_ok_witness :
    lookupA cRegA "w" = some cWfA ∧
    cWfA.steps ≠ [] ∧
    (∀ s st, ∃ r, cExecOk s st = .result r ∧ r.error = none) ∧
    (∃ preState r finalState,
      cExecOk (lastD cWfA.steps defaultStep) preState = .result r ∧
      r.error = none ∧
      chainLoop cExecOk cWfA.steps
          (initialState (cWfA.steps.headD defaultStep) cInput)
        = (.finished finalState, cWfA.steps) ∧
      (finalState.get (lastD cWfA.steps defaultStep).name).output.data
        = r.data ∧
      (finalState.get (lastD cWfA.steps defaultStep).name).input.context
        = cInput.context ∧
      executeChain cExecOk cRegA "w" cInput =
        (.output ⟨r.data,
          (finalState.get (lastD cWfA.steps defaultStep).name).input.context,
          none⟩, cWfA.steps)) :=
  ⟨rfl, by decide, fun s st => ⟨cResOk, rfl, rfl⟩,
   executeChain_all_ok cExecOk cRegA "w" cInput cWfA rfl (by decide)
     (fun s st => ⟨cResOk, rfl, rfl⟩)⟩

/-- C2: If step k's dispatch returns a result carrying an error and step k
declares a non-empty errorHandlerRef, ExecuteChain performs exactly the
k prior-plus-failing dispatches plus one more — the definition's next
positional step — records that step's outcome in the state under its own
name with the failing step's input reused as its recorded input, and
returns a WorkflowOutput carrying only step k's original error (zero data,
zero context, not the recovery step's result). -/
theorem executeChain_error_handler
    (exec : Step → WorkflowState V → StepOutcome V)
    (wfs : List (String × Workflow)) (name : String) (input : WorkflowInput V)
    (wf : Workflow) (pre : List Step) (stepk recStep : Step)
    (rest2 : List Step) (rk rr : StepResult V) (e : WorkflowError)
    (hwf : lookupA wfs name = some wf)
    (hsteps : wf.steps = pre ++ stepk :: recStep :: rest2)
    (hpre : ∀ s ∈ pre, ∀ st : WorkflowState V,
      ∃ r, exec s st = .result r ∧ r.error = none)
    (hk : ∀ st, exec stepk st = .result rk)
    (hke : rk.error = some e)
    (hhandler : stepk.errorHandler ≠ "")
    (hrec : ∀ st, exec recStep st = .result rr) :
    ∃ stateK,
      chainLoop exec wf.steps
          (initialState (wf.steps.headD defaultStep) input)
        = (.earlyOut ⟨[], [], some e⟩
            (recordHandler stateK stepk rk recStep rr),
           pre ++ [stepk, recStep]) ∧
      (recordHandler stateK stepk rk recStep rr).get recStep.name
        = ⟨(stateK.get stepk.name).input, ⟨rr.data, [], rr.error⟩⟩ ∧
      executeChain exec wfs name input
        = (.output ⟨[], [], some e⟩, pre ++ [stepk, recStep]) := by
  obtain ⟨stateK, hpfx⟩ := chainLoop_prefix exec (stepk :: recStep :: rest2)
    pre hpre (initialState (wf.steps.headD defaultStep) input)
  have htail := chainLoop_cons_err_handler exec stepk recStep rest2 stateK
    rk rr e (hk stateK) hke hhandler
    (hrec (recordOutput stateK stepk rk))
  have hcomb : chainLoop exec wf.steps
      (initialState (wf.steps.headD defaultStep) input)
      = (.earlyOut ⟨[], [], some e⟩
          (recordHandler stateK stepk rk recStep rr),
         pre ++ [stepk, recStep]) := by
    have h0 : (initialState ((pre ++ stepk :: recStep ::
        rest2).headD defaultStep) input : WorkflowState V)
        = initialState (wf.steps.headD defaultStep) input := by
      rw [hsteps]
    rw [hsteps, h0, hpfx, htail]
  have hne : wf.steps ≠ [] := by
    rw [hsteps]
    simp
  obtain ⟨s0, rest, hsr⟩ : ∃ s0 rest, wf.steps = s0 :: rest := by
    cases h : wf.steps with
    | nil => exact absurd h hne
    | cons a l => exact ⟨a, l, rfl⟩
  refine ⟨stateK, hcomb, ?_, ?_⟩
  · rw [recordHandler, get_set_self]
  · have hhead : wf.steps.headD defaultStep = s0 := by rw [hsr]; rfl
    rw [hhead] at hcomb
    rw [hsr] at hcomb
    show executeChain exec wfs name input = _
    simp only [executeChain, hwf, hsr]
    rw [hcomb]

/-- Witness for executeChain_error_handler: first step fails with an
error and declares handler h; the second declared step is dispatched as
recovery. -/
theorem executeChain_error_handler_witness :
    lookupA cRegFail2 "w" = some cWfFail2 ∧
    cWfFail2.steps = [] ++ cStepFail :: cStepB :: [] ∧
    (∀ st, cExecByName cStepFail st = .result cResErr) ∧
    cResErr.error = some cErr ∧
    cStepFail.errorHandler ≠ "" ∧
    (∀ st, cExecByName cStepB st = .result cResRec) ∧
    (∃ stateK,
      chainLoop cExecByName cWfFail2.steps
          (initialState (cWfFail2.steps.headD defaultStep) cInput)
        = (.earlyOut ⟨[], [], some cErr⟩
            (recordHandler stateK cStepFail cResErr cStepB cResRec),
           [] ++ [cStepFail, cStepB]) ∧
      (recordHandler stateK cStepFail cResErr cStepB cResRec).get cStepB.name
        = ⟨(stateK.get cStepFail.name).input, ⟨cResRec.data, [], cResRec.error⟩⟩ ∧
      executeChain cExecByName cRegFail2 "w" cInput
        = (.output ⟨[], [], some cErr⟩, [] ++ [cStepFail, cStepB])) :=
  ⟨rfl, rfl, fun _ => rfl, rfl, by decide, fun _ => rfl,
   executeChain_error_handler cExecByName cRegFail2 "w" cInput cWfFail2
     [] cStepFail cStepB [] cResErr cResRec cErr rfl rfl
     (fun s hs => absurd hs (List.not_mem_nil s))
     (fun _ => rfl) rfl (by decide) (fun _ => rfl)⟩

/-- C3: If step k's dispatch returns a result with a non-null error and
step k declares no errorHandlerRef (and further declared steps exist),
ExecuteChain terminates with the k dispatches made so far — no step after
k is ever dispatched — and the returned WorkflowOutput carries that
error. -/
theorem executeChain_error_no_handler
    (exec : Step → WorkflowState V → StepOutcome V)
    (wfs : List (String × Workflow)) (name : String) (input : WorkflowInput V)
    (wf : Workflow) (pre : List Step) (stepk nextStep : Step)
    (rest2 : List Step) (rk : StepResult V) (e : WorkflowError)
    (hwf : lookupA wfs name = some wf)
    (hsteps : wf.steps = pre ++ stepk :: nextStep :: rest2)
    (hpre : ∀ s ∈ pre, ∀ st : WorkflowState V,
      ∃ r, exec s st = .result r ∧ r.error = none)
    (hk : ∀ st, exec stepk st = .result rk)
    (hke : rk.error = some e)
    (hhandler : stepk.errorHandler = "") :
    executeChain exec wfs name input
      = (.output ⟨[], [], some e⟩, pre ++ [stepk]) := by
  obtain ⟨stateK, hpfx⟩ := chainLoop_prefix exec (stepk :: nextStep :: rest2)
    pre hpre (initialState (wf.steps.headD defaultStep) input)
  have htail := chainLoop_cons_err_noh exec stepk (nextStep :: rest2) stateK
    rk e (hk stateK) hke hhandler
  have hcomb : chainLoop exec wf.steps
      (initialState (wf.steps.headD defaultStep) input)
      = (.earlyOut ⟨[], [], some e⟩ (recordOutput stateK stepk rk),
         pre ++ [stepk]) := by
    have h0 : (initialState ((pre ++ stepk :: nextStep ::
        rest2).headD defaultStep) input : WorkflowState V)
        = initialState (wf.steps.headD defaultStep) input := by
      rw [hsteps]
    rw [hsteps, h0, hpfx, htail]
  have hne : wf.steps ≠ [] := by
    rw [hsteps]
    simp
  obtain ⟨s0, rest, hsr⟩ : ∃ s0 rest, wf.steps = s0 :: rest := by
    cases h : wf.steps with
    | nil => exact absurd h hne
    | cons a l => exact ⟨a, l, rfl⟩
  have hhead : wf.steps.headD defaultStep = s0 := by rw [hsr]; rfl
  rw [hhead] at hcomb
  rw [hsr] at hcomb
  show executeChain exec wfs name input = _
  simp only [executeChain, hwf, hsr]
  rw [hcomb]

/-- Witness for executeChain_error_no_handler: first step fails without a
handler while a second step is declared; only one dispatch happens. -/
theorem executeChain_error_no_handler_witness :
    lookupA cRegFailNoH "w" = some cWfFailNoH ∧
    cWfFailNoH.steps = [] ++ cStepFailNoH :: cStepB :: [] ∧
    (∀ st, cExecByName cStepFailNoH st = .result cResErr) ∧
    cResErr.error = some cErr ∧
    cStepFailNoH.errorHandler = "" ∧
    executeChain cExecByName cRegFailNoH "w" cInput
      = (.output ⟨[], [], some cErr⟩, [] ++ [cStepFailNoH]) :=
  ⟨rfl, rfl, fun _ => rfl, rfl, rfl,
   executeChain_error_no_handler cExecByName cRegFailNoH "w" cInput
     cWfFailNoH [] cStepFailNoH cStepB [] cResErr cErr rfl rfl
     (fun s hs => absurd hs (List.not_mem_nil s))
     (fun _ => rfl) rfl rfl⟩

/-- C4: ExecuteStep of unnamed/part_002 classifies a response whose
Content-Type is not the expected JSON type as a recoverable StepResult
carrying a WorkflowError with code INVALID_RESPONSE_TYPE, and a
200-status body that cannot be parsed into the StepResult shape as a
recoverable StepResult with code INVALID_JSON; in both cases the Go error
is nil (the outcome is a decoded result, eligible for error-handler
dispatch, never fatal). -/
theorem executeStepU_recoverable_classification
    (render : String → WorkflowState V → RenderResult)
    (decode : String → Except String (StepResult V))
    (http : String → String → HttpResult)
    (ports : List (String × Nat)) (step : Step) (state : WorkflowState V)
    (p : String) (port : Nat) (resp : HttpResponse)
    (hrender : render step.inputTemplate state = .rendered p)
    (hport : lookupA ports step.lambda = some port)
    (hresp : http ("http://localhost:" ++ toString port) p
      = .response resp) :
    (resp.contentType ≠ "application/json" →
      ExecuteStepU render decode http ports step state =
        (.result ⟨[], some ⟨step.name,
          "lambda returned unexpected Content-Type: " ++ resp.contentType ++
            ", body: " ++ resp.body, "INVALID_RESPONSE_TYPE"⟩⟩, state)) ∧
    (resp.contentType = "application/json" → resp.statusCode = 200 →
      ∀ e, decode resp.body = .error e →
        ExecuteStepU render decode http ports step state =
          (.result ⟨[], some ⟨step.name,
            "failed to parse lambda response as JSON: " ++ resp.body ++
              ", error: " ++ e, "INVALID_JSON"⟩⟩, state)) := by
  constructor
  · intro hct
    simp [ExecuteStepU, stepOutcomeU, hrender, hport, hresp,
      classifyResponseU, hct]
  · intro hct hst e hd
    simp [ExecuteStepU, stepOutcomeU, hrender, hport, hresp,
      classifyResponseU, hct, hst, hd]

/-- Witness for executeStepU_recoverable_classification, applied once to
a text/plain response and once to an undecodable 200 JSON response. -/
theorem executeStepU_recoverable_classification_witness :
    (cRespText.contentType ≠ "application/json" ∧
     ExecuteStepU cRender cDecodeErr cHttpText cPorts cStepA cState =
       (.result ⟨[], some ⟨cStepA.name,
         "lambda returned unexpected Content-Type: " ++
           cRespText.contentType ++ ", body: " ++ cRespText.body,
         "INVALID_RESPONSE_TYPE"⟩⟩, cState)) ∧
    (cRespJson200.contentType = "application/json" ∧
     cRespJson200.statusCode = 200 ∧
     cDecodeErr cRespJson200.body = .error "bad" ∧
     ExecuteStepU cRender cDecodeErr cHttpJson200 cPorts cStepA cState =
       (.result ⟨[], some ⟨cStepA.name,
         "failed to parse lambda response as JSON: " ++ cRespJson200.body ++
           ", error: " ++ "bad", "INVALID_JSON"⟩⟩, cState)) :=
  ⟨⟨by decide,
    (executeStepU_recoverable_classification cRender cDecodeErr cHttpText
      cPorts cStepA cState "p" 8080 cRespText rfl rfl rfl).1 (by decide)⟩,
   ⟨rfl, rfl, rfl,
    (executeStepU_recoverable_classification cRender cDecodeErr cHttpJson200
      cPorts cStepA cState "p" 8080 cRespJson200 rfl rfl rfl).2
      rfl rfl "bad" rfl⟩⟩

/-- C5: A transport failure of the HTTP POST is a fatal Go error from
ExecuteStep of unnamed/part_002 — never converted into a recoverable
StepResult error — and ExecuteChain running over that ExecuteStep aborts
the whole run with an invocation-level fatal error (no WorkflowOutput):
the dispatch trace stops at the failing step, so no error-handler step is
dispatched. -/
theorem executeChain_transport_fatal
    (render : String → WorkflowState V → RenderResult)
    (decode : String → Except String (StepResult V))
    (http : String → String → HttpResult)
    (ports : List (String × Nat))
    (wfs : List (String × Workflow)) (name : String) (input : WorkflowInput V)
    (wf : Workflow) (pre : List Step) (stepk : Step) (rest2 : List Step)
    (port : Nat) (m : String)
    (hwf : lookupA wfs name = some wf)
    (hsteps : wf.steps = pre ++ stepk :: rest2)
    (hpre : ∀ s ∈ pre, ∀ st : WorkflowState V,
      ∃ r, execU render decode http ports s st = .result r ∧ r.error = none)
    (hrender : ∀ st : WorkflowState V,
      ∃ p, render stepk.inputTemplate st = .rendered p)
    (hport : lookupA ports stepk.lambda = some port)
    (htrans : ∀ p, http ("http://localhost:" ++ toString port) p
      = .transportError m) :
    (∀ st : WorkflowState V, ExecuteStepU render decode http ports stepk st
       = (.fatal ("failed to call lambda: " ++ m), st)) ∧
    executeChain (execU render decode http ports) wfs name input
      = (.fatalErr ("step " ++ stepk.name ++ " failed: "
          ++ ("failed to call lambda: " ++ m)), pre ++ [stepk]) := by
  have hstep : ∀ st : WorkflowState V,
      execU render decode http ports stepk st
        = .fatal ("failed to call lambda: " ++ m) := by
    intro st
    obtain ⟨p, hp⟩ := hrender st
    simp [execU, ExecuteStepU, stepOutcomeU, hp, hport, htrans p]
  constructor
  · intro st
    obtain ⟨p, hp⟩ := hrender st
    simp [ExecuteStepU, stepOutcomeU, hp, hport, htrans p]
  · obtain ⟨stateK, hpfx⟩ := chainLoop_prefix (execU render decode http ports)
      (stepk :: rest2) pre hpre
      (initialState (wf.steps.headD defaultStep) input)
    have htail := chainLoop_cons_fatal (execU render decode http ports)
      stepk rest2 stateK ("failed to call lambda: " ++ m) (hstep stateK)
    have hcomb : chainLoop (execU render decode http ports) wf.steps
        (initialState (wf.steps.headD defaultStep) input)
        = (.fatalErr ("step " ++ stepk.name ++ " failed: "
            ++ ("failed to call lambda: " ++ m)), pre ++ [stepk]) := by
      have h0 : (initialState ((pre ++ stepk ::
          rest2).headD defaultStep) input : WorkflowState V)
          = initialState (wf.steps.headD defaultStep) input := by
        rw [hsteps]
      rw [hsteps, h0, hpfx, htail]
    have hne : wf.steps ≠ [] := by
      rw [hsteps]
      simp
    obtain ⟨s0, rest, hsr⟩ : ∃ s0 rest, wf.steps = s0 :: rest := by
      cases h : wf.steps with
      | nil => exact absurd h hne
      | cons a l => exact ⟨a, l, rfl⟩
    have hhead : wf.steps.headD defaultStep = s0 := by rw [hsr]; rfl
    rw [hhead] at hcomb
    rw [hsr] at hcomb
    show executeChain (execU render decode http ports) wfs name input = _
    simp only [executeChain, hwf, hsr]
    rw [hcomb]

/-- Witness for executeChain_transport_fatal: a one-step workflow whose
lambda's POST fails at the transport level. -/
theorem executeChain_transport_fatal_witness :
    lookupA cRegA "w" = some cWfA ∧
    cWfA.steps = [] ++ cStepA :: [] ∧
    lookupA cPorts cStepA.lambda = some 8080 ∧
    (∀ p, cHttpDown ("http://localhost:" ++ toString 8080) p
      = .transportError "refused") ∧
    (∀ st : WorkflowState Nat,
      ExecuteStepU cRender cDecodeOk cHttpDown cPorts cStepA st
        = (.fatal ("failed to call lambda: " ++ "refused"), st)) ∧
    executeChain (execU cRender cDecodeOk cHttpDown cPorts) cRegA "w" cInput
      = (.fatalErr ("step " ++ cStepA.name ++ " failed: "
          ++ ("failed to call lambda: " ++ "refused")), [] ++ [cStepA]) := by
  have h := executeChain_transport_fatal cRender cDecodeOk cHttpDown cPorts
    cRegA "w" cInput cWfA [] cStepA [] 8080 "refused" rfl rfl
    (fun s hs => absurd hs (List.not_mem_nil s))
    (fun st => ⟨"p", rfl⟩) rfl (fun p => rfl)
  exact ⟨rfl, rfl, rfl, fun p => rfl, h.1, h.2⟩

/-- C6: After a successful (error-free) step that is not the last one,
the input seeded for the next step has context exactly equal to the
context recorded as the finished step's input and data exactly equal to
the finished step's result data, and the loop continues on exactly that
seeded state — so context is carried forward unchanged at every step
while data is replaced. -/
theorem seedNext_propagation
    (exec : Step → WorkflowState V → StepOutcome V)
    (s nextStep : Step) (rest2 : List Step) (state : WorkflowState V)
    (r : StepResult V)
    (hr : exec s state = .result r) (he : r.error = none) :
    chainLoop exec (s :: nextStep :: rest2) state =
      ((chainLoop exec (nextStep :: rest2)
          (seedNext state s r nextStep)).1,
       s :: (chainLoop exec (nextStep :: rest2)
          (seedNext state s r nextStep)).2) ∧
    ((seedNext state s r nextStep).get nextStep.name).input.context
      = (state.get s.name).input.context ∧
    ((seedNext state s r nextStep).get nextStep.name).input.data
      = r.data := by
  refine ⟨chainLoop_cons_ok exec s nextStep rest2 state r hr he, ?_, ?_⟩
  · rw [get_seedNext_self]
  · rw [get_seedNext_self]

/-- Witness for seedNext_propagation on a concrete successful step. -/
theorem seedNext_propagation_witness :
    cExecOk cStepA cState = .result cResOk ∧
    cResOk.error = none ∧
    (chainLoop cExecOk (cStepA :: cStepB :: []) cState =
      ((chainLoop cExecOk (cStepB :: [])
          (seedNext cState cStepA cResOk cStepB)).1,
       cStepA :: (chainLoop cExecOk (cStepB :: [])
          (seedNext cState cStepA cResOk cStepB)).2) ∧
     ((seedNext cState cStepA cResOk cStepB).get cStepB.name).input.context
       = (cState.get cStepA.name).input.context ∧
     ((seedNext cState cStepA cResOk cStepB).get cStepB.name).input.data
       = cResOk.data) :=
  ⟨rfl, rfl,
   seedNext_propagation cExecOk cStepA cStepB [] cState cResOk rfl rfl⟩

/-- C7 (amended): ExecuteChain returns normally — a WorkflowOutput or a
Go error, never a panic — for every registry workflow whose step list is
non-empty, provided the last declared step either declares no error
handler or never yields an error-carrying result.  The two excluded cases
really panic (index out of range), as the counterexample shows. -/
theorem executeChain_no_panic
    (exec : Step → WorkflowState V → StepOutcome V)
    (wfs : List (String × Workflow)) (name : String) (input : WorkflowInput V)
    (wf : Workflow)
    (hwf : lookupA wfs name = some wf)
    (hne : wf.steps ≠ [])
    (hsafe : (lastD wf.steps defaultStep).errorHandler = "" ∨
      ∀ st r, exec (lastD wf.steps defaultStep) st = .result r →
        r.error = none) :
    (executeChain exec wfs name input).1 ≠ .panicked := by
  obtain ⟨s0, rest, hsr⟩ : ∃ s0 rest, wf.steps = s0 :: rest := by
    cases h : wf.steps with
    | nil => exact absurd h hne
    | cons a l => exact ⟨a, l, rfl⟩
  have hloop := chainLoop_no_panic exec wf.steps
    (initialState s0 input) hsafe
  rw [hsr] at hloop
  simp only [executeChain, hwf, hsr]
  rcases hcl : chainLoop exec (s0 :: rest) (initialState s0 input)
    with ⟨res, tr⟩
  rw [hcl] at hloop
  cases res with
  | panicked => exact absurd rfl hloop
  | fatalErr m => simp
  | earlyOut out st => simp
  | finished fs => simp

/-- Counterexample to C7 as stated: ExecuteChain panics on a registered
workflow with an empty parsed step list (workflow.Steps[0] out of range),
and when the last step's dispatch yields an error-carrying result while
that step declares a non-empty ErrorHandler (workflow.Steps[i+1] out of
range). -/
theorem executeChain_panics_counterexample :
    executeChain cExecOk cRegEmpty "w" cInput = (.panicked, []) ∧
    executeChain cExecByName cRegLastFail "w" cInput
      = (.panicked, [cStepFail]) :=
  ⟨rfl, rfl⟩

/-- Witness for executeChain_no_panic on a concrete one-step workflow
whose step has no error handler. -/
theorem executeChain_no_panic_witness :
    lookupA cRegA "w" = some cWfA ∧
    cWfA.steps ≠ [] ∧
    (lastD cWfA.steps defaultStep).errorHandler = "" ∧
    (executeChain cExecOk cRegA "w" cInput).1 ≠ .panicked :=
  ⟨rfl, by decide, rfl,
   executeChain_no_panic cExecOk cRegA "w" cInput cWfA rfl (by decide)
     (Or.inl rfl)⟩

/-- C8 (amended): ExecuteStep of unnamed/part_002 sends the rendered
template bytes verbatim as the request body with no JSON well-formedness
check interposed: once rendering yields a payload and the port lookup
succeeds, the outcome is exactly the transport's answer to that very
payload, classified.  The original claim — that the rendered payload
always parses as a well-formed JSON object — is refuted by the
counterexample below. -/
theorem executeStepU_sends_rendered_payload
    (render : String → WorkflowState V → RenderResult)
    (decode : String → Except String (StepResult V))
    (http : String → String → HttpResult)
    (ports : List (String × Nat)) (step : Step) (state : WorkflowState V)
    (p : String) (port : Nat)
    (hrender : render step.inputTemplate state = .rendered p)
    (hport : lookupA ports step.lambda = some port) :
    stepOutcomeU render decode http ports step state =
      match http ("http://localhost:" ++ toString port) p with
      | .transportError m => .fatal ("failed to call lambda: " ++ m)
      | .response resp => classifyResponseU decode step resp := by
  simp [stepOutcomeU, hrender, hport]

/-- Counterexample to C8 as stated: with the action-free input template
hello the rendered payload is the literal text hello, which is not a
well-formed JSON object, and ExecuteStep still dispatches it (here
successfully). -/
theorem renderedPayload_not_json_counterexample :
    renderLiteral cStepHello.inputTemplate cState
      = RenderResult.rendered "hello" ∧
    isJsonObjectString "hello" = false ∧
    stepOutcomeU renderLiteral cDecodeOk cHttpJson200 cPorts cStepHello
      cState = .result cResOk :=
  ⟨rfl, by decide, rfl⟩

/-- Witness for executeStepU_sends_rendered_payload at the literal
template hello. -/
theorem executeStepU_sends_rendered_payload_witness :
    renderLiteral cStepHello.inputTemplate cState
      = RenderResult.rendered "hello" ∧
    lookupA cPorts cStepHello.lambda = some 8080 ∧
    stepOutcomeU renderLiteral cDecodeOk cHttpJson200 cPorts cStepHello
      cState =
      (match cHttpJson200 ("http://localhost:" ++ toString 8080) "hello" with
       | .transportError m => .fatal ("failed to call lambda: " ++ m)
       | .response resp => classifyResponseU cDecodeOk cStepHello resp) :=
  ⟨rfl, rfl,
   executeStepU_sends_rendered_payload renderLiteral cDecodeOk cHttpJson200
     cPorts cStepHello cState "hello" 8080 rfl rfl⟩

/-- C9: Template rendering is pure and deterministic — the renderer is a
function of the template and the ExecutionState alone, so rendering the
same template against an unchanged state twice yields byte-identical
payloads and identical step outcomes — and ExecuteStep (either version)
does not modify the ExecutionState: the state it passes back is exactly
the state it received (the Go code never writes through the state
pointer). -/
theorem render_pure_state_unchanged
    (render : String → WorkflowState V → RenderResult)
    (decode : String → Except String (StepResult V))
    (http : String → String → HttpResult)
    (ports : List (String × Nat)) (step : Step)
    (st1 st2 : WorkflowState V) (h : st1 = st2) :
    render step.inputTemplate st1 = render step.inputTemplate st2 ∧
    ExecuteStepU render decode http ports step st1
      = ExecuteStepU render decode http ports step st2 ∧
    (ExecuteStepU render decode http ports step st1).2 = st1 ∧
    (ExecuteStepO render decode http step st1).2 = st1 := by
  subst h
  exact ⟨rfl, rfl, rfl, rfl⟩

/-- Witness for render_pure_state_unchanged at a concrete step and
state. -/
theorem render_pure_state_unchanged_witness :
    cRender cStepA.inputTemplate cState = cRender cStepA.inputTemplate cState ∧
    ExecuteStepU cRender cDecodeOk cHttpJson200 cPorts cStepA cState
      = ExecuteStepU cRender cDecodeOk cHttpJson200 cPorts cStepA cState ∧
    (ExecuteStepU cRender cDecodeOk cHttpJson200 cPorts cStepA cState).2
      = cState ∧
    (ExecuteStepO cRender cDecodeOk cHttpJson200 cStepA cState).2 = cState :=
  render_pure_state_unchanged cRender cDecodeOk cHttpJson200 cPorts cStepA
    cState cState rfl

/-- Counterexample to C10 as stated: on the same 200 text/plain response
with an undecodable body, ExecuteStep of unnamed/part_002 yields a
recoverable StepResult (code INVALID_RESPONSE_TYPE) while ExecuteStep of
orchestrator/executor.go yields a fatal Go error — different
classifications. -/
theorem executeStep_equiv_counterexample :
    sameClassification
      (stepOutcomeU cRender cDecodeErr cHttpText cPorts cStepA cState)
      (stepOutcomeO cRender cDecodeErr cHttpText cStepA cState) = false := by
  decide

/-- C10 (amended): the two ExecuteStep implementations agree — indeed
return identical outcomes — whenever the step's lambda has a port
mapping, both POSTs see the same response, the response's Content-Type is
application/json, and either the status is not 200 or the body decodes;
outside these conditions they diverge, as the counterexample shows. -/
theorem executeStep_equiv_amended
    (render : String → WorkflowState V → RenderResult)
    (decode : String → Except String (StepResult V))
    (http : String → String → HttpResult)
    (ports : List (String × Nat)) (step : Step) (state : WorkflowState V)
    (p : String) (port : Nat) (resp : HttpResponse)
    (hrender : render step.inputTemplate state = .rendered p)
    (hport : lookupA ports step.lambda = some port)
    (hU : http ("http://localhost:" ++ toString port) p = .response resp)
    (hO : http ("http://" ++ step.lambda ++ ":8080") p = .response resp)
    (hct : resp.contentType = "application/json")
    (hok : resp.statusCode ≠ 200 ∨ ∃ r, decode resp.body = Except.ok r) :
    ExecuteStepU render decode http ports step state
      = ExecuteStepO render decode http step state := by
  have hcls : classifyResponseU decode step resp
      = classifyResponseO decode step resp := by
    by_cases hst : resp.statusCode = 200
    · obtain ⟨r, hr⟩ : ∃ r, decode resp.body = Except.ok r := by
        cases hok with
        | inl h0 => exact absurd hst h0
        | inr h0 => exact h0
      simp [classifyResponseU, classifyResponseO, hct, hst, hr]
    · simp [classifyResponseU, classifyResponseO, hct, hst]
  simp [ExecuteStepU, ExecuteStepO, stepOutcomeU, stepOutcomeO,
    hrender, hport, hU, hO, hcls]

/-- Witness for executeStep_equiv_amended on a 500 application/json
response seen identically by both implementations. -/
theorem executeStep_equiv_amended_witness :
    cRender cStepA.inputTemplate cState = .rendered "p" ∧
    lookupA cPorts cStepA.lambda = some 8080 ∧
    cRespJson500.contentType = "application/json" ∧
    cRespJson500.statusCode ≠ 200 ∧
    ExecuteStepU cRender cDecodeErr cHttpJson500 cPorts cStepA cState
      = ExecuteStepO cRender cDecodeErr cHttpJson500 cStepA cState :=
  ⟨rfl, rfl, rfl, by decide,
   executeStep_equiv_amended cRender cDecodeErr cHttpJson500 cPorts cStepA
     cState "p" 8080 cRespJson500 rfl rfl rfl rfl rfl
     (Or.inl (by decide))⟩

end ClaimTheorems

section SanityChecks

/-- Sanity of the JSON object checker: a nested object with an array,
booleans, null and numbers is accepted; plain text, a bare array, and a
truncated object are rejected. -/
theorem isJsonObjectString_sanity :
    isJsonObjectString " \x7b \"a\" : [1, true, null], \"b\" : \x7b\x7d \x7d "
      = true ∧
    isJsonObjectString "hello" = false ∧
    isJsonObjectString "[1, 2]" = false ∧
    isJsonObjectString "\x7b\"a\":1" = false := by
  decide

end SanityChecks
